import Mathlib

/-!
Verification of the client-side logic of the Kitchen Ingredient Recipe
Finder (`script.js`).  The script classifies an uploaded photo with a
MobileNet model, maps the predicted labels to a fixed ingredient
vocabulary (`ingredientMap`), and fetches up to three recipes per
recognised ingredient from TheMealDB API, rendering the results into the
page.

The embedding below models:
  * the ingredient vocabulary as an association list (JS object literal);
  * JavaScript's `String.prototype.split(',')` and `trim()` on the
    character lists underlying Lean strings;
  * the label-resolution loop (`predictions.forEach` body, lines 95-106)
    over prediction records with rational confidence values, with the JS
    `Set` modelled as a duplicate-free insertion-ordered list;
  * `fetchRecipes` (lines 126-161) as an `Except`-valued try-block
    (`fetchBody`) wrapped by a total catch handler;
  * the analyze-button click handler and its `img.onload` continuation
    as producers of a trace of primitive DOM/console events, with the
    deferred fetch completions appended after the synchronous segment in
    an arbitrary completion order.
-/

namespace KitchenFinder

/-- One MobileNet prediction: `{ className, probability }` as consumed by
the click handler (lines 97 and 102 of `script.js`).  The probability is
modelled as a rational number. -/
structure Prediction where
  className : String
  probability : ℚ
deriving DecidableEq, Repr

/-- The static label-to-ingredient vocabulary, transcribed entry by entry
from the `ingredientMap` object literal (lines 18-48 of `script.js`). -/
def ingredientMap : List (String × String) :=
  [("banana", "banana"),
   ("Granny Smith", "apple"),
   ("strawberry", "strawberry"),
   ("orange", "orange"),
   ("lemon", "lemon"),
   ("pineapple", "pineapple"),
   ("cucumber", "cucumber"),
   ("carrot", "carrot"),
   ("broccoli", "broccoli"),
   ("cauliflower", "cauliflower"),
   ("bell pepper", "pepper"),
   ("chili pepper", "pepper"),
   ("jalapeno", "pepper"),
   ("potato", "potato"),
   ("cabbage", "cabbage"),
   ("lettuce", "lettuce"),
   ("mushroom", "mushroom"),
   ("garlic", "garlic"),
   ("ginger", "ginger"),
   ("onion", "onion"),
   ("egg", "egg"),
   ("bagel", "bread"),
   ("pretzel", "bread"),
   ("dough", "bread"),
   ("pizza", "pizza"),
   ("bacon", "bacon"),
   ("hotdog", "hot dog"),
   ("hamburger", "beef"),
   ("cheeseburger", "beef")]

/-- Property lookup on a JS object literal with string keys:
`ingredientMap[trimmed]` returns the value of the first (only) matching
key, or is absent. -/
def mapLookup : List (String × String) → String → Option String
  | [], _ => none
  | (k, v) :: rest, key => if key = k then some v else mapLookup rest key

/-- The value set of the ingredient vocabulary: every canonical
ingredient name the map can produce. -/
def vocabValues : List String := ingredientMap.map Prod.snd

/-- Whitespace test used by the model of JS `String.prototype.trim`. -/
def isWs (c : Char) : Bool :=
  c = ' ' || c = '\t' || c = '\n' || c = '\r'

/-- Model of JS `part.trim()` (line 101): strip leading and trailing
whitespace. -/
def jsTrim (s : String) : String :=
  String.mk (((s.data.dropWhile isWs).reverse.dropWhile isWs).reverse)

/-- Splitting a character list at every comma, accumulating the current
segment in reverse. -/
def splitCommaAux : List Char → List Char → List (List Char)
  | [], cur => [cur.reverse]
  | c :: rest, cur =>
    if c = ',' then cur.reverse :: splitCommaAux rest []
    else splitCommaAux rest (c :: cur)

/-- Model of JS `name.split(',')` (line 99): the segments between commas,
in order; an empty string yields one empty segment. -/
def jsSplitComma (s : String) : List String :=
  (splitCommaAux s.data []).map String.mk

/-- `Set.prototype.add` on the insertion-ordered duplicate-free list
modelling the JS `Set` `recognised` (line 95). -/
def setAdd (s : List String) (x : String) : List String :=
  if x ∈ s then s else s ++ [x]

/-- The confidence threshold hard-coded in line 102 of `script.js`. -/
def confidenceThreshold : ℚ := 0.20

/-- Body of the inner `for (const part of parts)` loop (lines 100-105):
trim the part, and when the vocabulary has the trimmed key and the
prediction's probability exceeds the threshold, add the canonical name to
the set. -/
def addPart (prob : ℚ) (acc : List String) (part : String) : List String :=
  match mapLookup ingredientMap (jsTrim part) with
  | some canon => if prob > confidenceThreshold then setAdd acc canon else acc
  | none => acc

/-- Body of `predictions.forEach` (lines 96-106): split the class name on
commas and process each part. -/
def resolveStep (acc : List String) (pred : Prediction) : List String :=
  (jsSplitComma pred.className).foldl (addPart pred.probability) acc

/-- The resolved `recognised` set (lines 95-106): fold the per-prediction
step over the prediction sequence, starting from the empty set. -/
def recognised (predictions : List Prediction) : List String :=
  predictions.foldl resolveStep []

/-- One record of TheMealDB response list, restricted to the fields that
`fetchRecipes` reads (lines 141-148). -/
structure Meal where
  strMeal : String
  strMealThumb : String
  idMeal : String
deriving DecidableEq, Repr

/-- The data content of one rendered recipe card: title, thumbnail image
source and detail link target (lines 138-156). -/
structure RecipeSummary where
  title : String
  thumbnailUrl : String
  detailUrl : String
deriving DecidableEq, Repr

/-- The card built from one meal record: `strMeal` as the title,
`strMealThumb` as the image, and the detail URL
`https://www.themealdb.com/meal.php?c=` followed by `idMeal`
(lines 138-155). -/
def mealToCard (meal : Meal) : RecipeSummary :=
  { title := meal.strMeal
    thumbnailUrl := meal.strMealThumb
    detailUrl := "https://www.themealdb.com/meal.php?c=" ++ meal.idMeal }

/-- What the network hands back to one `fetchRecipes` call: either the
`fetch` promise itself rejects (network unreachable), or a response
arrives with an `ok` flag and a body whose JSON parse either throws
(malformed) or yields `data.meals` — `none` models the service's
`"meals": null` no-results marker. -/
inductive ServiceResponse where
  | networkFailure (msg : String)
  | response (ok : Bool) (body : Except String (Option (List Meal)))
deriving Repr

/-- The `try` block of `fetchRecipes` (lines 127-157) as an
`Except`-valued computation: a rejected fetch propagates its exception; a
non-ok status throws `API request failed`; a body parse error propagates;
a null `data.meals` returns with a console message; otherwise the first
three meals become cards. -/
def fetchBody (ingredient : String) (resp : ServiceResponse) :
    Except String (List RecipeSummary × Option String) :=
  match resp with
  | .networkFailure msg => .error msg
  | .response ok body =>
    if !ok then .error "API request failed"
    else
      match body with
      | .error msg => .error msg
      | .ok none => .ok ([], some ("No recipes found for " ++ ingredient ++ "."))
      | .ok (some meals) => .ok ((meals.take 3).map mealToCard, none)

/-- Observable outcome of one `fetchRecipes` call: the cards appended to
the recipe container, the `console.log` message if any, and the
`console.error` message if any. -/
structure FetchResult where
  cards : List RecipeSummary
  infoLog : Option String
  errorLog : Option String
deriving DecidableEq, Repr

/-- `fetchRecipes` (lines 126-161): the `try` block wrapped in the
`catch` handler, which converts any thrown error into a `console.error`
message and an empty result.  The function is total: no error reaches the
caller. -/
def fetchRecipes (ingredient : String) (resp : ServiceResponse) : FetchResult :=
  match fetchBody ingredient resp with
  | .ok (cards, info) => { cards := cards, infoLog := info, errorLog := none }
  | .error e =>
    { cards := [], infoLog := none
      errorLog := some ("Error fetching recipes: " ++ e) }

/-- Primitive DOM and console events emitted by the click handler and the
fetch completions. -/
inductive Event where
  | alert (msg : String)
  | clearIngredients
  | clearRecipes
  | setDisabled (b : Bool)
  | setLabel (s : String)
  | classifyCall
  | setPlaceholder (s : String)
  | appendIngredient (ing : String)
  | initiateFetch (ing : String)
  | appendCard (card : RecipeSummary)
  | logInfo (msg : String)
  | logError (msg : String)
deriving DecidableEq, Repr

/-- Whether an event appends a recipe card. -/
def Event.isAppendCard : Event → Bool
  | .appendCard _ => true
  | _ => false

/-- Whether an event initiates a recipe fetch. -/
def Event.isInitiateFetch : Event → Bool
  | .initiateFetch _ => true
  | _ => false

/-- The page surface mutated by the events: the ingredient list items,
the recipe cards, the analyze button state, the alerts raised and the
console output. -/
structure PageState where
  ingredientItems : List String
  recipeCards : List RecipeSummary
  analyzeDisabled : Bool
  analyzeLabel : String
  alerts : List String
  consoleLog : List String
deriving DecidableEq, Repr

/-- Effect of one event on the page state. -/
def applyEvent (s : PageState) : Event → PageState
  | .alert m => { s with alerts := s.alerts ++ [m] }
  | .clearIngredients => { s with ingredientItems := [] }
  | .clearRecipes => { s with recipeCards := [] }
  | .setDisabled b => { s with analyzeDisabled := b }
  | .setLabel l => { s with analyzeLabel := l }
  | .classifyCall => s
  | .setPlaceholder m => { s with ingredientItems := [m] }
  | .appendIngredient i => { s with ingredientItems := s.ingredientItems ++ [i] }
  | .initiateFetch _ => s
  | .appendCard c => { s with recipeCards := s.recipeCards ++ [c] }
  | .logInfo m => { s with consoleLog := s.consoleLog ++ [m] }
  | .logError m => { s with consoleLog := s.consoleLog ++ [m] }

/-- Effect of an event sequence on the page state. -/
def applyEvents (s : PageState) (es : List Event) : PageState :=
  es.foldl applyEvent s

/-- The synchronous events of `recognised.forEach` (lines 114-119): for
each recognised ingredient, in insertion order, the list item is appended
and the fetch is initiated (the async callback runs to its first await
before the next iteration starts). -/
def perIngredientSync : List String → List Event
  | [] => []
  | ing :: rest =>
    Event.appendIngredient ing :: Event.initiateFetch ing :: perIngredientSync rest

/-- The synchronous events of the `img.onload` continuation after the
classification await (lines 93-121): resolve the predictions; when the
set is empty render the placeholder and re-enable, otherwise render each
ingredient, initiate its fetch, and re-enable. -/
def analysisSyncTrace (preds : List Prediction) : List Event :=
  let r := recognised preds
  if r = [] then
    [.setPlaceholder "No recognizable ingredients found.",
     .setLabel "Analyze Ingredients", .setDisabled false]
  else
    perIngredientSync r ++ [.setLabel "Analyze Ingredients", .setDisabled false]

/-- The events of one analyze-button click (lines 72-123): the two
precondition checks each raise an alert and stop; otherwise the displays
are cleared, the button is disabled and relabelled, classification is
invoked, and the post-classification synchronous events follow. -/
def clickTrace (modelLoaded : Bool) (file : Option String)
    (preds : List Prediction) : List Event :=
  if !modelLoaded then [.alert "Model not loaded yet, please wait."]
  else
    match file with
    | none => [.alert "Please upload an image first."]
    | some _ =>
      [.clearIngredients, .clearRecipes, .setDisabled true,
       .setLabel "Analyzing...", .classifyCall] ++ analysisSyncTrace preds

/-- The deferred events of one `fetchRecipes` completion: the cards
appended to the container and the console messages. -/
def fetchCompletionEvents (ing : String) (resp : ServiceResponse) : List Event :=
  let r := fetchRecipes ing resp
  r.cards.map Event.appendCard ++
    (match r.infoLog with | some m => [Event.logInfo m] | none => []) ++
    (match r.errorLog with | some m => [Event.logError m] | none => [])

/-- The deferred fetch-completion events, in the completion order given
by `order`; `respOf` is the network's response for each ingredient. -/
def runDeferred (respOf : String → ServiceResponse) : List String → List Event
  | [] => []
  | ing :: rest => fetchCompletionEvents ing (respOf ing) ++ runDeferred respOf rest

/-- The full event trace of one analyze action: the synchronous click
events followed by the deferred fetch completions, which the event loop
schedules only after the synchronous code has run to completion. -/
def fullTrace (modelLoaded : Bool) (file : Option String)
    (preds : List Prediction) (respOf : String → ServiceResponse)
    (order : List String) : List Event :=
  clickTrace modelLoaded file preds ++ runDeferred respOf order

/-- A concrete page state with stale results on display, used to
exercise the click handler. -/
def demoState : PageState :=
  { ingredientItems := ["stale-ingredient"]
    recipeCards := [⟨"Stale Recipe", "stale-thumb", "stale-url"⟩]
    analyzeDisabled := false
    analyzeLabel := "Analyze Ingredients"
    alerts := []
    consoleLog := [] }

/-- A concrete six-meal service response used to exercise the cap. -/
def sixMeals : List Meal :=
  [⟨"Banana Pancakes", "t1", "1"⟩, ⟨"Banana Bread", "t2", "2"⟩,
   ⟨"Banoffee Pie", "t3", "3"⟩, ⟨"Banana Split", "t4", "4"⟩,
   ⟨"Banana Smoothie", "t5", "5"⟩, ⟨"Banana Muffins", "t6", "6"⟩]

/-! ### Basic facts about the resolver -/

/-- A successful vocabulary lookup always returns one of the map's
values. -/
theorem mapLookup_mem_values (m : List (String × String)) (key v : String)
    (h : mapLookup m key = some v) : v ∈ m.map Prod.snd := by
  induction m with
  | nil => simp [mapLookup] at h
  | cons kv rest ih =>
    obtain ⟨k, w⟩ := kv
    by_cases hk : key = k
    · simp [mapLookup, hk] at h
      simp [h]
    · simp [mapLookup, hk] at h
      simpa using Or.inr (ih h)

/-- Membership after a `setAdd` comes from the old set or is the new
element. -/
theorem mem_setAdd (s : List String) (x y : String)
    (h : y ∈ setAdd s x) : y ∈ s ∨ y = x := by
  unfold setAdd at h
  by_cases hx : x ∈ s
  · rw [if_pos hx] at h; exact Or.inl h
  · rw [if_neg hx] at h
    rcases List.mem_append.mp h with h' | h'
    · exact Or.inl h'
    · exact Or.inr (List.mem_singleton.mp h')

/-- A fold preserves any invariant preserved by its step function. -/
theorem foldl_preserves {α β : Type} (f : β → α → β) (P : β → Prop)
    (hf : ∀ b a, P b → P (f b a)) :
    ∀ (l : List α) (b : β), P b → P (l.foldl f b)
  | [], _, hb => hb
  | a :: l, b, hb => foldl_preserves f P hf l (f b a) (hf b a hb)

/-- Processing one label part only ever adds vocabulary values. -/
theorem addPart_mem_vocab (prob : ℚ) (acc : List String) (part x : String)
    (hacc : ∀ y ∈ acc, y ∈ vocabValues)
    (hx : x ∈ addPart prob acc part) : x ∈ vocabValues := by
  unfold addPart at hx
  split at hx
  next canon hl =>
    split at hx
    next =>
      rcases mem_setAdd acc canon x hx with h' | h'
      · exact hacc x h'
      · exact h' ▸ mapLookup_mem_values ingredientMap (jsTrim part) canon hl
    next => exact hacc x hx
  next => exact hacc x hx

/-- One resolution step only ever adds vocabulary values. -/
theorem resolveStep_mem_vocab (acc : List String) (pred : Prediction)
    (hacc : ∀ y ∈ acc, y ∈ vocabValues) :
    ∀ x ∈ resolveStep acc pred, x ∈ vocabValues := by
  unfold resolveStep
  intro x hx
  revert hx
  revert x
  refine foldl_preserves (addPart pred.probability)
    (fun b => ∀ y ∈ b, y ∈ vocabValues) ?_ (jsSplitComma pred.className) acc hacc
  intro b a hb y hy
  exact addPart_mem_vocab pred.probability b a y hb hy

/-- C1: every element of the resolved Recognized Ingredient Set is one of
the Ingredient Vocabulary's value strings — no analysis ever yields a
canonical name absent from the vocabulary's value set. -/
theorem recognised_subset_vocab (predictions : List Prediction) (x : String)
    (hx : x ∈ recognised predictions) : x ∈ vocabValues := by
  unfold recognised at hx
  revert hx
  revert x
  refine foldl_preserves resolveStep (fun b => ∀ y ∈ b, y ∈ vocabValues)
    ?_ predictions [] (by intro y hy; simp at hy)
  intro b a hb
  exact resolveStep_mem_vocab b a hb

/-- Witness for C1 on a concrete prediction sequence. -/
theorem recognised_subset_vocab_witness :
    "banana" ∈ recognised [⟨"banana", 0.9⟩] ∧ "banana" ∈ vocabValues := by
  have hmem : "banana" ∈ recognised [⟨"banana", 0.9⟩] := by
    norm_num +decide [recognised, resolveStep, addPart, jsSplitComma, jsTrim,
      splitCommaAux, isWs, mapLookup, ingredientMap, setAdd, confidenceThreshold]
  exact ⟨hmem, recognised_subset_vocab [⟨"banana", 0.9⟩] "banana" hmem⟩

/-- Processing one label part of a prediction at or below the threshold
leaves the set unchanged, whether or not the part is in the vocabulary. -/
theorem addPart_low (prob : ℚ) (h : prob ≤ confidenceThreshold)
    (acc : List String) (part : String) : addPart prob acc part = acc := by
  unfold addPart
  split
  next canon hl => rw [if_neg (not_lt.mpr h)]
  next => rfl

/-- A fold whose step never changes the accumulator is the identity. -/
theorem foldl_id {α β : Type} (f : β → α → β) (hf : ∀ c a, f c a = c) :
    ∀ (l : List α) (b : β), l.foldl f b = b
  | [], _ => rfl
  | a :: l, b => by rw [List.foldl_cons, hf b a]; exact foldl_id f hf l b

/-- A whole prediction at or below the threshold leaves the set
unchanged: every one of its comma-separated parts is ignored. -/
theorem resolveStep_low (acc : List String) (pred : Prediction)
    (h : pred.probability ≤ confidenceThreshold) :
    resolveStep acc pred = acc := by
  unfold resolveStep
  exact foldl_id _ (fun c a => addPart_low _ h c a) _ _

/-- Resolution sees only the predictions above the threshold, from any
starting accumulator. -/
theorem recognised_filter_aux :
    ∀ (l : List Prediction) (acc : List String),
      l.foldl resolveStep acc =
        (l.filter fun p => p.probability > confidenceThreshold).foldl resolveStep acc
  | [], _ => rfl
  | p :: l, acc => by
    by_cases hp : p.probability > confidenceThreshold
    · rw [List.filter_cons_of_pos (by simpa using hp), List.foldl_cons,
        List.foldl_cons]
      exact recognised_filter_aux l (resolveStep acc p)
    · rw [List.filter_cons_of_neg (by simpa using hp), List.foldl_cons,
        resolveStep_low acc p (not_lt.mp hp)]
      exact recognised_filter_aux l acc

/-- C2: a prediction whose confidence is at or below the threshold 0.20
contributes nothing to the resolved set — all of its comma-separated
parts are ignored even when they match the vocabulary — so the resolved
set equals the one computed from only the strictly-above-threshold
predictions. -/
theorem low_confidence_contributes_nothing (predictions : List Prediction) :
    recognised predictions =
      recognised (predictions.filter fun p => p.probability > confidenceThreshold) ∧
    ∀ (pred : Prediction) (acc : List String),
      pred.probability ≤ confidenceThreshold → resolveStep acc pred = acc :=
  ⟨recognised_filter_aux predictions [],
   fun pred acc h => resolveStep_low acc pred h⟩

/-- Witness for C2 at a below-threshold prediction whose label is in the
vocabulary. -/
theorem low_confidence_contributes_nothing_witness :
    recognised [⟨"banana", 0.1⟩] =
      recognised ([(⟨"banana", 0.1⟩ : Prediction)].filter
        fun p => p.probability > confidenceThreshold) ∧
    resolveStep [] ⟨"banana", 0.1⟩ = [] := by
  have h := low_confidence_contributes_nothing [⟨"banana", 0.1⟩]
  exact ⟨h.1, h.2 ⟨"banana", 0.1⟩ [] (by norm_num [confidenceThreshold])⟩

/-- C3: the resolver splits labels on commas and trims each part before
exact lookup: `[{label:"bagel, roll, bun", confidence:0.5}]` resolves to
exactly `{"bread"}`, and `[{banana, 0.9}, {Granny Smith, 0.5},
{lemon, 0.1}]` resolves to exactly `{"banana", "apple"}` (lemon excluded
by the 0.20 threshold). -/
theorem label_split_scenarios :
    recognised [⟨"bagel, roll, bun", 0.5⟩] = ["bread"] ∧
    recognised [⟨"banana", 0.9⟩, ⟨"Granny Smith", 0.5⟩, ⟨"lemon", 0.1⟩] =
      ["banana", "apple"] := by
  constructor <;>
    norm_num +decide [recognised, resolveStep, addPart, jsSplitComma, jsTrim,
      splitCommaAux, isWs, mapLookup, ingredientMap, setAdd, confidenceThreshold]

/-! ### The Recipe Fetcher -/

/-- Claim C4: the Recipe Fetcher produces at most 3 summaries for any
response; on a success response with matches the cards are exactly the
first three service entries, mapped in the service's original order with
no client-side reranking; a response with 6 matches yields exactly 3
cards. -/
theorem fetchRecipes_cap (ingredient : String) (resp : ServiceResponse) :
    (fetchRecipes ingredient resp).cards.length ≤ 3 ∧
    (∀ meals : List Meal,
      (fetchRecipes ingredient (.response true (.ok (some meals)))).cards =
        (meals.take 3).map mealToCard) ∧
    (∀ meals : List Meal, meals.length = 6 →
      (fetchRecipes ingredient (.response true (.ok (some meals)))).cards.length = 3) := by
  refine ⟨?_, fun meals => rfl, fun meals h => ?_⟩
  · cases resp with
    | networkFailure msg => simp [fetchRecipes, fetchBody]
    | response ok body =>
      cases ok with
      | false => simp [fetchRecipes, fetchBody]
      | true =>
        cases body with
        | error msg => simp [fetchRecipes, fetchBody]
        | ok omeals =>
          cases omeals with
          | none => simp [fetchRecipes, fetchBody]
          | some meals =>
            simp only [fetchRecipes, fetchBody, Bool.not_true, Bool.false_eq_true,
              if_false, List.length_map, List.length_take]
            omega
  · simp only [fetchRecipes, fetchBody, Bool.not_true, Bool.false_eq_true,
      if_false, List.length_map, List.length_take, h]
    omega

/-- Witness for C4: a six-meal response yields exactly three cards. -/
theorem fetchRecipes_cap_witness :
    (fetchRecipes "banana" (.response true (.ok (some sixMeals)))).cards.length = 3 :=
  (fetchRecipes_cap "banana" (.response true (.ok (some sixMeals)))).2.2 sixMeals rfl

/-- Claim C9: a successful response carrying the service's no-results
marker (`"meals": null`) yields an empty card list, a `console.log`
message, and no error. -/
theorem no_results_logged (ingredient : String) :
    fetchRecipes ingredient (.response true (.ok none)) =
      { cards := [], errorLog := none,
        infoLog := some ("No recipes found for " ++ ingredient ++ ".") } := rfl

/-- Every event in the `deferred` run for the ingredients off a
distinguished one is independent of that ingredient's response. -/
theorem runDeferred_filter_congr (ingredient : String)
    (respOf respOf' : String → ServiceResponse)
    (hagree : ∀ i, i ≠ ingredient → respOf i = respOf' i) :
    ∀ order : List String,
      runDeferred respOf (order.filter fun i => i ≠ ingredient) =
        runDeferred respOf' (order.filter fun i => i ≠ ingredient)
  | [] => rfl
  | i :: order => by
    by_cases hi : i = ingredient
    · rw [List.filter_cons_of_neg (by simp [hi])]
      exact runDeferred_filter_congr ingredient respOf respOf' hagree order
    · rw [List.filter_cons_of_pos (by simp [hi])]
      simp only [runDeferred, hagree i hi]
      rw [runDeferred_filter_congr ingredient respOf respOf' hagree order]

/-- The re-enable event occurs in the post-classification synchronous
segment whatever the predictions resolve to. -/
theorem setDisabled_false_mem_analysisSync (preds : List Prediction) :
    Event.setDisabled false ∈ analysisSyncTrace preds := by
  unfold analysisSyncTrace
  by_cases h : recognised preds = []
  · simp [h]
  · simp [h]

/-- Claim C5: a failed recipe request — non-success HTTP status or any
transport-level exception — is caught inside `fetchRecipes`: the failure
is logged, the result is empty, and no exception reaches the caller;
moreover the completion events of every other ingredient are unaffected
by the failing ingredient's response, and the analyze control's re-enable
event occurs in the trace for every response environment. -/
theorem fetch_failure_isolated (ingredient : String) (resp : ServiceResponse)
    (e : String) (h : fetchBody ingredient resp = Except.error e) :
    fetchRecipes ingredient resp =
      { cards := [], infoLog := none,
        errorLog := some ("Error fetching recipes: " ++ e) } ∧
    (∀ (respOf respOf' : String → ServiceResponse) (order : List String),
      (∀ i, i ≠ ingredient → respOf i = respOf' i) →
      runDeferred respOf (order.filter fun i => i ≠ ingredient) =
        runDeferred respOf' (order.filter fun i => i ≠ ingredient)) ∧
    (∀ (f : String) (preds : List Prediction) (respOf : String → ServiceResponse)
       (order : List String),
      Event.setDisabled false ∈ fullTrace true (some f) preds respOf order) := by
  refine ⟨?_, ?_, ?_⟩
  · simp [fetchRecipes, h]
  · intro respOf respOf' order hagree
    exact runDeferred_filter_congr ingredient respOf respOf' hagree order
  · intro f preds respOf order
    unfold fullTrace clickTrace
    simp only [Bool.not_true, Bool.false_eq_true, if_false]
    refine List.mem_append.mpr (Or.inl ?_)
    refine List.mem_append.mpr (Or.inr ?_)
    exact setDisabled_false_mem_analysisSync preds

/-- Witness for C5 at a non-success HTTP status. -/
theorem fetch_failure_isolated_witness :
    fetchRecipes "banana" (.response false (.ok none)) =
      { cards := [], infoLog := none,
        errorLog := some ("Error fetching recipes: " ++ "API request failed") } :=
  (fetch_failure_isolated "banana" (.response false (.ok none))
    "API request failed" rfl).1

/-! ### The Orchestrator -/

/-- Claim C6: when the resolved set is empty, the click handler renders
exactly the placeholder, renders no recipe cards, initiates no recipe
fetch, and returns to idle with the control re-enabled and its label
reset. -/
theorem empty_resolution_placeholder (f : String) (preds : List Prediction)
    (s : PageState) (h : recognised preds = []) :
    (∀ ing, Event.initiateFetch ing ∉ clickTrace true (some f) preds) ∧
    (applyEvents s (clickTrace true (some f) preds)).ingredientItems =
      ["No recognizable ingredients found."] ∧
    (applyEvents s (clickTrace true (some f) preds)).recipeCards = [] ∧
    (applyEvents s (clickTrace true (some f) preds)).analyzeDisabled = false ∧
    (applyEvents s (clickTrace true (some f) preds)).analyzeLabel =
      "Analyze Ingredients" := by
  have htr : clickTrace true (some f) preds =
      [.clearIngredients, .clearRecipes, .setDisabled true,
       .setLabel "Analyzing...", .classifyCall,
       .setPlaceholder "No recognizable ingredients found.",
       .setLabel "Analyze Ingredients", .setDisabled false] := by
    simp [clickTrace, analysisSyncTrace, h]
  rw [htr]
  refine ⟨?_, ?_, ?_, ?_, ?_⟩ <;> simp [applyEvents, applyEvent]

/-- Witness for C6 at the empty prediction sequence, starting from a
page with stale results. -/
theorem empty_resolution_placeholder_witness :
    (∀ ing, Event.initiateFetch ing ∉ clickTrace true (some "img") []) ∧
    (applyEvents demoState (clickTrace true (some "img") [])).ingredientItems =
      ["No recognizable ingredients found."] ∧
    (applyEvents demoState (clickTrace true (some "img") [])).recipeCards = [] ∧
    (applyEvents demoState (clickTrace true (some "img") [])).analyzeDisabled = false ∧
    (applyEvents demoState (clickTrace true (some "img") [])).analyzeLabel =
      "Analyze Ingredients" :=
  empty_resolution_placeholder "img" [] demoState rfl

/-- An initiate-fetch event for every recognised ingredient occurs in the
per-ingredient synchronous segment. -/
theorem initiateFetch_mem_perIngredientSync :
    ∀ (ings : List String) (ing : String), ing ∈ ings →
      Event.initiateFetch ing ∈ perIngredientSync ings
  | [], _, h => absurd h (List.not_mem_nil _)
  | i :: ings, ing, h => by
    rcases List.mem_cons.mp h with h' | h'
    · subst h'; simp [perIngredientSync]
    · simp only [perIngredientSync, List.mem_cons]
      exact Or.inr (Or.inr (initiateFetch_mem_perIngredientSync ings ing h'))

/-- The per-ingredient synchronous segment appends no recipe card. -/
theorem perIngredientSync_no_appendCard :
    ∀ (ings : List String), ∀ e ∈ perIngredientSync ings, e.isAppendCard = false
  | [], e, h => absurd h (List.not_mem_nil _)
  | i :: ings, e, h => by
    simp only [perIngredientSync, List.mem_cons] at h
    rcases h with h | h | h
    · subst h; rfl
    · subst h; rfl
    · exact perIngredientSync_no_appendCard ings e h

/-- A fetch completion appends cards and writes console messages; it
never initiates a fetch. -/
theorem fetchCompletionEvents_no_initiate (i : String) (r : ServiceResponse) :
    ∀ e ∈ fetchCompletionEvents i r, e.isInitiateFetch = false := by
  intro e he
  simp only [fetchCompletionEvents] at he
  rcases List.mem_append.mp he with h | h
  · rcases List.mem_append.mp h with h' | h'
    · obtain ⟨c, -, hc⟩ := List.mem_map.mp h'
      subst hc; rfl
    · cases hinfo : (fetchRecipes i r).infoLog with
      | none => rw [hinfo] at h'; simp at h'
      | some m =>
        rw [hinfo] at h'
        have := List.mem_singleton.mp h'
        subst this; rfl
  · cases herr : (fetchRecipes i r).errorLog with
    | none => rw [herr] at h; simp at h
    | some m =>
      rw [herr] at h
      have := List.mem_singleton.mp h
      subst this; rfl

/-- No event of the deferred completion segment initiates a fetch. -/
theorem runDeferred_no_initiate (respOf : String → ServiceResponse) :
    ∀ (order : List String), ∀ e ∈ runDeferred respOf order,
      e.isInitiateFetch = false
  | [], e, h => absurd h (List.not_mem_nil _)
  | i :: order, e, h => by
    simp only [runDeferred] at h
    rcases List.mem_append.mp h with h' | h'
    · exact fetchCompletionEvents_no_initiate i (respOf i) e h'
    · exact runDeferred_no_initiate respOf order e h'

/-- Claim C7: when the resolved set is nonempty, the full trace places
the label reset and re-enable after every fetch initiation and before
every deferred completion event: the control is re-enabled once all
fetches have been initiated, without waiting for any to complete, and
recipe cards may still be appended afterwards. -/
theorem reenable_before_completions (f : String) (preds : List Prediction)
    (respOf : String → ServiceResponse) (order : List String)
    (hne : recognised preds ≠ []) (_hord : order.Perm (recognised preds)) :
    ∃ pre post,
      fullTrace true (some f) preds respOf order =
        pre ++ [Event.setLabel "Analyze Ingredients", Event.setDisabled false]
          ++ post ∧
      (∀ ing ∈ recognised preds, Event.initiateFetch ing ∈ pre) ∧
      (∀ e ∈ pre, e.isAppendCard = false) ∧
      (∀ e ∈ post, e.isInitiateFetch = false) := by
  refine ⟨[.clearIngredients, .clearRecipes, .setDisabled true,
    .setLabel "Analyzing...", .classifyCall] ++ perIngredientSync (recognised preds),
    runDeferred respOf order, ?_, ?_, ?_, ?_⟩
  · simp [fullTrace, clickTrace, analysisSyncTrace, hne]
  · intro ing hing
    exact List.mem_append.mpr (Or.inr (initiateFetch_mem_perIngredientSync _ ing hing))
  · intro e he
    rcases List.mem_append.mp he with h | h
    · simp only [List.mem_cons, List.not_mem_nil, or_false] at h
      rcases h with rfl | rfl | rfl | rfl | rfl <;> rfl
    · exact perIngredientSync_no_appendCard _ e h
  · exact runDeferred_no_initiate respOf order

/-- Witness for C7 at one recognised ingredient whose fetch completes
with cards. -/
theorem reenable_before_completions_witness :
    ∃ pre post,
      fullTrace true (some "img") [⟨"banana", 0.9⟩]
          (fun _ => .response true (.ok (some sixMeals))) ["banana"] =
        pre ++ [Event.setLabel "Analyze Ingredients", Event.setDisabled false]
          ++ post ∧
      (∀ ing ∈ recognised [⟨"banana", 0.9⟩], Event.initiateFetch ing ∈ pre) ∧
      (∀ e ∈ pre, e.isAppendCard = false) ∧
      (∀ e ∈ post, e.isInitiateFetch = false) := by
  have hr : recognised [⟨"banana", 0.9⟩] = ["banana"] := by
    norm_num +decide [recognised, resolveStep, addPart, jsSplitComma, jsTrim,
      splitCommaAux, isWs, mapLookup, ingredientMap, setAdd, confidenceThreshold]
  exact reenable_before_completions "img" [⟨"banana", 0.9⟩]
    (fun _ => .response true (.ok (some sixMeals))) ["banana"]
    (by rw [hr]; exact List.cons_ne_nil _ _) (by rw [hr])

/-- Claim C8: an analyze click while the model is not loaded, or while
no image is selected, raises exactly one alert and does nothing else: no
classification, no fetch initiation, and the page state is unchanged
except for the recorded alert. -/
theorem precondition_reject_idle (modelLoaded : Bool) (file : Option String)
    (preds : List Prediction) (s : PageState)
    (h : modelLoaded = false ∨ file = none) :
    ∃ msg, clickTrace modelLoaded file preds = [Event.alert msg] ∧
      Event.classifyCall ∉ clickTrace modelLoaded file preds ∧
      (∀ ing, Event.initiateFetch ing ∉ clickTrace modelLoaded file preds) ∧
      applyEvents s (clickTrace modelLoaded file preds) =
        { s with alerts := s.alerts ++ [msg] } := by
  cases modelLoaded with
  | false =>
    refine ⟨"Model not loaded yet, please wait.", ?_, ?_, ?_, ?_⟩ <;>
      simp [clickTrace, applyEvents, applyEvent]
  | true =>
    rcases h with h | h
    · exact absurd h (by simp)
    · subst h
      refine ⟨"Please upload an image first.", ?_, ?_, ?_, ?_⟩ <;>
        simp [clickTrace, applyEvents, applyEvent]

/-- Witness for C8: clicking before the model has loaded. -/
theorem precondition_reject_idle_witness :
    ∃ msg, clickTrace false (some "img") [] = [Event.alert msg] ∧
      Event.classifyCall ∉ clickTrace false (some "img") [] ∧
      (∀ ing, Event.initiateFetch ing ∉ clickTrace false (some "img") []) ∧
      applyEvents demoState (clickTrace false (some "img") []) =
        { demoState with alerts := demoState.alerts ++ [msg] } :=
  precondition_reject_idle false (some "img") [] demoState (Or.inl rfl)

/-- Claim C10: a rejected analyze action leaves the previously displayed
ingredient list and recipe cards untouched, and the two displays are
cleared first thing once both precondition checks pass. -/
theorem precondition_preserves_displays (modelLoaded : Bool) (file : Option String)
    (preds : List Prediction) (s : PageState)
    (h : modelLoaded = false ∨ file = none) :
    ((applyEvents s (clickTrace modelLoaded file preds)).ingredientItems =
        s.ingredientItems ∧
      (applyEvents s (clickTrace modelLoaded file preds)).recipeCards =
        s.recipeCards) ∧
    (∀ f : String, ∃ rest, clickTrace true (some f) preds =
      Event.clearIngredients :: Event.clearRecipes :: rest) := by
  constructor
  · cases modelLoaded with
    | false => simp [clickTrace, applyEvents, applyEvent]
    | true =>
      rcases h with h | h
      · exact absurd h (by simp)
      · subst h; simp [clickTrace, applyEvents, applyEvent]
  · intro f
    refine ⟨[.setDisabled true, .setLabel "Analyzing...", .classifyCall] ++
      analysisSyncTrace preds, ?_⟩
    simp [clickTrace]

/-- Witness for C10: a click with no image selected leaves the stale
displays in place. -/
theorem precondition_preserves_displays_witness :
    ((applyEvents demoState (clickTrace true none [])).ingredientItems =
        demoState.ingredientItems ∧
      (applyEvents demoState (clickTrace true none [])).recipeCards =
        demoState.recipeCards) ∧
    (∀ f : String, ∃ rest, clickTrace true (some f) [] =
      Event.clearIngredients :: Event.clearRecipes :: rest) :=
  precondition_preserves_displays true none [] demoState (Or.inr rfl)

end KitchenFinder
